import Mathlib

/- Formal model of `PINN_ZPG.py` (ZPG-boundary-layer PINN trainer).

   Matrices with a fixed number of columns are embedded as lists of tuples,
   one tuple per row (2-column matrices as `List (K × K)`, 3-column matrices
   as `List (K × K × K)`).  Float32 arithmetic is embedded as exact arithmetic
   in a linear ordered field `K`; concrete evaluations use `K = ℚ`, and the
   analytic facts about the residual evaluator use `K = ℝ`. -/

namespace PINNZPG

section Defs

variable {K : Type} [LinearOrderedField K]

/-- Normalization state for the 2-column inputs: the attributes `self.xmin`
    and `self.xmax` that `fit_scalex` assigns on the `PINNs` object. -/
structure XScale (K : Type) where
  xmin : K × K
  xmax : K × K
deriving DecidableEq

/-- Normalization state for the 3-column outputs: the attribute `self.ymax`
    that `fit_scale` assigns on the `PINNs` object. -/
structure YScale (K : Type) where
  ymax : K × K × K
deriving DecidableEq

/-- Columnwise maximum of a 2-column matrix: `tf.reduce_max(x, axis=0)`. -/
def colMax2 : List (K × K) → K × K
  | [] => (0, 0)
  | p :: ps => ps.foldl (fun a q => (max a.1 q.1, max a.2 q.2)) p

/-- Columnwise minimum of a 2-column matrix: `tf.reduce_min(x, axis=0)`. -/
def colMin2 : List (K × K) → K × K
  | [] => (0, 0)
  | p :: ps => ps.foldl (fun a q => (min a.1 q.1, min a.2 q.2)) p

/-- Columnwise maximum of a 3-column matrix: `tf.reduce_max(y, axis=0)`. -/
def colMax3 : List (K × K × K) → K × K × K
  | [] => (0, 0, 0)
  | t :: ts => ts.foldl (fun a q => (max a.1 q.1, max a.2.1 q.2.1, max a.2.2 q.2.2)) t

/-- Elementwise absolute value of a 2-column matrix: `tf.abs(x)`. -/
def absRows2 (x : List (K × K)) : List (K × K) :=
  x.map fun p => (|p.1|, |p.2|)

/-- Elementwise absolute value of a 3-column matrix: `tf.abs(y)`. -/
def absRows3 (y : List (K × K × K)) : List (K × K × K) :=
  y.map fun t => (|t.1|, |t.2.1|, |t.2.2|)

/-- `PINNs.fit_scale` (source lines 79-82): computes
    `ymax = tf.reduce_max(tf.abs(y), axis=0)`, stores it in `self.ymax`,
    and returns `y / ymax`.  The returned pair is (stored state, returned
    matrix). -/
def fit_scale (y : List (K × K × K)) : YScale K × List (K × K × K) :=
  let ymax := colMax3 (absRows3 y)
  (⟨ymax⟩, y.map fun t => (t.1 / ymax.1, t.2.1 / ymax.2.1, t.2.2 / ymax.2.2))

/-- `PINNs.scale` (source lines 84-86): `y / self.ymax`, rowwise. -/
def scale (s : YScale K) (t : K × K × K) : K × K × K :=
  (t.1 / s.ymax.1, t.2.1 / s.ymax.2.1, t.2.2 / s.ymax.2.2)

/-- `PINNs.scale_r` (source lines 88-90): `ys * self.ymax`, rowwise. -/
def scale_r (s : YScale K) (t : K × K × K) : K × K × K :=
  (t.1 * s.ymax.1, t.2.1 * s.ymax.2.1, t.2.2 * s.ymax.2.2)

/-- `PINNs.fit_scalex` (source lines 92-98): computes
    `xmax = tf.reduce_max(tf.abs(x), axis=0)` and
    `xmin = tf.reduce_min(x, axis=0)`, stores both, and returns
    `(x - xmin) / (xmax - xmin)`.  The returned pair is (stored state,
    returned matrix). -/
def fit_scalex (x : List (K × K)) : XScale K × List (K × K) :=
  let xmax := colMax2 (absRows2 x)
  let xmin := colMin2 x
  (⟨xmin, xmax⟩,
   x.map fun p =>
     ((p.1 - xmin.1) / (xmax.1 - xmin.1), (p.2 - xmin.2) / (xmax.2 - xmin.2)))

/-- `PINNs.scalex` (source lines 100-103): `(x - self.xmin) / (self.xmax - self.xmin)`,
    rowwise. -/
def scalex (s : XScale K) (p : K × K) : K × K :=
  ((p.1 - s.xmin.1) / (s.xmax.1 - s.xmin.1), (p.2 - s.xmin.2) / (s.xmax.2 - s.xmin.2))

/-- `PINNs.scalex_r` (source lines 105-108): `xs * (self.xmax - self.xmin) + self.xmin`,
    rowwise. -/
def scalex_r (s : XScale K) (p : K × K) : K × K :=
  (p.1 * (s.xmax.1 - s.xmin.1) + s.xmin.1, p.2 * (s.xmax.2 - s.xmin.2) + s.xmin.2)

/-- The transform claimed for `fit_scalex` by the specification: store the
    componentwise minimum and the componentwise maximum of `x` itself and
    return `(x - min) / (max - min)`.  Written from the spec's words, to be
    compared with `fit_scalex` as translated from the source. -/
def fit_scalex_claim (x : List (K × K)) : XScale K × List (K × K) :=
  let xmax := colMax2 x
  let xmin := colMin2 x
  (⟨xmin, xmax⟩,
   x.map fun p =>
     ((p.1 - xmin.1) / (xmax.1 - xmin.1), (p.2 - xmin.2) / (xmax.2 - xmin.2)))

/-- The opaque network `self.model` (an external collaborator: a
    differentiable mapping of one normalized 2D coordinate to three
    normalized outputs) together with the data that `tf.GradientTape`
    produces for it: its exact first partial derivatives in each argument
    and the exact second partial derivatives of the two velocity components.
    `n0`, `n1`, `n2` are the three output components; `a` suffixes denote a
    partial derivative in the first argument, `b` in the second. -/
structure Model (K : Type) where
  n0 : K → K → K
  n1 : K → K → K
  n2 : K → K → K
  n0a : K → K → K
  n0b : K → K → K
  n0aa : K → K → K
  n0bb : K → K → K
  n1a : K → K → K
  n1b : K → K → K
  n1aa : K → K → K
  n1bb : K → K → K
  n2a : K → K → K
  n2b : K → K → K

/-- `self.nu = 1 / 450`, set in `PINNs.__init__` (source line 21). -/
def nu : K := 1 / 450

/-- The per-row body of `PINNs.net_f` (source lines 26-50) as a function of
    the physical coordinates `x = cp[:, 0]`, `y = cp[:, 1]` obtained after
    the initial `scalex_r`.  The graph re-normalizes the watched physical
    coordinates (`X = self.scalex(X)`), evaluates the network and inverts
    the output scaling (`pred = self.scale_r(pred)`).  Each
    `tape.gradient(_, x)` / `tape.gradient(_, y)` call is embedded as the
    exact reverse-mode derivative of that graph: differentiating
    `ymax * n(((x) - xmin) / (xmax - xmin), _)` with respect to the watched
    coordinate contributes the factor `(xmax - xmin)⁻¹` once per
    differentiation. -/
def netfRowPhys (sx : XScale K) (sy : YScale K) (m : Model K) (x y : K) : K × K × K :=
  let Xn := scalex sx (x, y)
  let a := Xn.1
  let b := Xn.2
  let pred := scale_r sy (m.n0 a b, m.n1 a b, m.n2 a b)
  let U := pred.1
  let V := pred.2.1
  let cx := (sx.xmax.1 - sx.xmin.1)⁻¹
  let cy := (sx.xmax.2 - sx.xmin.2)⁻¹
  let Ux := sy.ymax.1 * m.n0a a b * cx
  let Uy := sy.ymax.1 * m.n0b a b * cy
  let Vx := sy.ymax.2.1 * m.n1a a b * cx
  let Vy := sy.ymax.2.1 * m.n1b a b * cy
  let Uxx := sy.ymax.1 * m.n0aa a b * cx * cx
  let Uyy := sy.ymax.1 * m.n0bb a b * cy * cy
  let Vxx := sy.ymax.2.1 * m.n1aa a b * cx * cx
  let Vyy := sy.ymax.2.1 * m.n1bb a b * cy * cy
  let uvx := sy.ymax.2.2 * m.n2a a b * cx
  let uvy := sy.ymax.2.2 * m.n2b a b * cy
  let f1 := U * Ux + V * Uy - nu * (Uxx + Uyy) + uvy
  let f2 := U * Vx + V * Vy - nu * (Vxx + Vyy) + uvx
  let f3 := Ux + Vy
  (f1, f2, f3)

/-- One row of `net_f`: the collocation point arrives in normalized space
    and is first mapped back to physical coordinates by
    `cp = self.scalex_r(cp)` (source line 28). -/
def netfRow (sx : XScale K) (sy : YScale K) (m : Model K) (p : K × K) : K × K × K :=
  netfRowPhys sx sy m (scalex_r sx p).1 (scalex_r sx p).2

/-- `PINNs.net_f` (source lines 26-50): the residuals `tf.stack([f1, f2, f3],
    axis=-1)`, one row per collocation point. -/
def net_f (sx : XScale K) (sy : YScale K) (m : Model K) (cp : List (K × K)) :
    List (K × K × K) :=
  cp.map (netfRow sx sy m)

/-- Elementwise square of a 3-column row: `tf.square`. -/
def square3 (t : K × K × K) : K × K × K :=
  (t.1 ^ 2, t.2.1 ^ 2, t.2.2 ^ 2)

/-- `tf.reduce_mean` over all `3 * N` entries of a 3-column matrix. -/
def reduce_mean3 (rows : List (K × K × K)) : K :=
  (rows.map fun t => t.1 + t.2.1 + t.2.2).sum / (3 * (rows.length : K))

/-- `PINNs.train_step` (source lines 55-74): boundary loss
    `tf.reduce_mean(tf.square(y - u_p_bc))` on the normalized boundary rows,
    PDE loss `tf.reduce_mean(tf.square(f))` on the `net_f` residuals, and
    total `loss = loss_u + loss_f` with `loss_u = loss_bc`.  Returns the
    scalar loss (of which `tape.gradient(loss, trainable_vars)` is taken by
    the external differentiation service) and the logged triple
    `tf.stack([l1, l2, l3])`; `l1 = loss`, `l2 = loss_u`, `l3 = loss_f`
    (the `tf.reduce_mean` of a scalar is the scalar). -/
def train_step (sx : XScale K) (sy : YScale K) (m : Model K)
    (bc : List ((K × K) × (K × K × K))) (cp : List (K × K)) : K × (K × K × K) :=
  let diffs := bc.map fun r =>
    (r.2.1 - m.n0 r.1.1 r.1.2, r.2.2.1 - m.n1 r.1.1 r.1.2,
     r.2.2.2 - m.n2 r.1.1 r.1.2)
  let f := net_f sx sy m cp
  let loss_bc := reduce_mean3 (diffs.map square3)
  let loss_f := reduce_mean3 (f.map square3)
  let loss_u := loss_bc
  let loss := loss_u + loss_f
  (loss, (loss, loss_u, loss_f))

/-- All entries of a 3-column matrix flattened into one list, row-major. -/
def flat3 (rows : List (K × K × K)) : List K :=
  (rows.map fun t => [t.1, t.2.1, t.2.2]).flatten

/-- Mean of a list of scalars. -/
def meanOfList (l : List K) : K := l.sum / (l.length : K)

/-- Spec-side boundary loss: the mean of the squared elementwise differences
    between the boundary targets and the model's boundary predictions, in
    normalized space. -/
def boundaryLossSpec (m : Model K) (bc : List ((K × K) × (K × K × K))) : K :=
  meanOfList ((flat3 (bc.map fun r =>
    (r.2.1 - m.n0 r.1.1 r.1.2, r.2.2.1 - m.n1 r.1.1 r.1.2,
     r.2.2.2 - m.n2 r.1.1 r.1.2))).map fun v => v ^ 2)

/-- Spec-side PDE loss: the mean of the squared elementwise residuals. -/
def pdeLossSpec (sx : XScale K) (sy : YScale K) (m : Model K)
    (cp : List (K × K)) : K :=
  meanOfList ((flat3 (net_f sx sy m cp)).map fun v => v ^ 2)

/-- A logged loss triple `(total, boundary, PDE)`. -/
abbrev Triple (K : Type) := K × K × K

/-- The phase-1 loop of `PINNs.fit` (source lines 131-136) acting on the
    `(self.hist, self.epoch)` state: each of the `self.epochs` iterations
    runs one training step, applies the phase-1 optimizer (an external
    service mutating only the opaque network parameters), appends the logged
    triple and advances the epoch counter.  The triple logged at epoch
    counter value `e` is abstracted as `p1 e`, since its value is determined
    by the externally-updated parameters. -/
def phase1 (p1 : ℕ → Triple K) : ℕ → List (Triple K) × ℕ → List (Triple K) × ℕ
  | 0, st => st
  | n + 1, (h, e) => phase1 p1 n (h ++ [p1 e], e + 1)

/-- The effect on `(self.hist, self.epoch)` of the closure `func` (source
    lines 122-129) being invoked once per element of `outs` by
    `self.sopt.minimize(func)`: each invocation appends one triple and
    advances the epoch counter.  How many times the external quasi-Newton
    optimizer invokes the closure is not controlled by `fit`, so the
    sequence of logged triples is abstracted as the list `outs`. -/
def phase2 : List (Triple K) → List (Triple K) × ℕ → List (Triple K) × ℕ
  | [], st => st
  | t :: ts, (h, e) => phase2 ts (h ++ [t], e + 1)

/-- The `(self.hist, self.epoch)` bookkeeping of one `PINNs.fit` call
    (source lines 113-139): the phase-1 loop followed unconditionally by
    `self.sopt.minimize(func)`; `fit` returns the accumulated history. -/
def fitRun (epochs : ℕ) (p1 : ℕ → Triple K) (p2 : List (Triple K))
    (st : List (Triple K) × ℕ) : List (Triple K) × ℕ :=
  phase2 p2 (phase1 p1 epochs st)

/-- Control-flow events of one `fit` call: a phase-1 optimization step at a
    given epoch counter, the entry into phase 2 (the `self.sopt.minimize`
    call on source line 138), or one phase-2 closure invocation. -/
inductive FitEv where
  | p1 : ℕ → FitEv
  | enterP2 : FitEv
  | p2 : ℕ → FitEv
deriving DecidableEq

/-- The events emitted by the phase-1 `for` loop (source lines 131-136),
    mirroring its iteration structure: `n` remaining iterations with the
    epoch counter at `e`. -/
def phase1Trace : ℕ → ℕ → List FitEv
  | 0, _ => []
  | n + 1, e => FitEv.p1 e :: phase1Trace n (e + 1)

/-- The control-flow trace of `fit` on a fresh object: the phase-1 loop runs
    `epochs` iterations starting from epoch counter `0`, then control
    reaches `self.sopt.minimize(func)` (the `enterP2` event: source line 138
    is straight-line code after the loop, with no guard), during which the
    external optimizer invokes the closure `k` times. -/
def fitTrace (epochs k : ℕ) : List FitEv :=
  phase1Trace epochs 0 ++ FitEv.enterP2 :: (List.range k).map FitEv.p2

/-- The mutable state of a `PINNs` object: `self.hist`, `self.epoch`, the
    normalization attributes (absent until the first `fit`), and the opaque
    network. -/
structure ObjState (K : Type) where
  hist : List (Triple K)
  epoch : ℕ
  xs : Option (XScale K)
  ys : Option (YScale K)
  m : Model K

/-- `PINNs.__init__` (source lines 13-21): `self.hist = []`,
    `self.epoch = 0`; the attributes `self.xmin`, `self.xmax`, `self.ymax`
    do not exist yet. -/
def initState (m : Model K) : ObjState K :=
  { hist := [], epoch := 0, xs := none, ys := none, m := m }

/-- The failure raised when a normalization attribute is read before `fit`
    has assigned it (Python raises on the missing attribute). -/
inductive NotFitted where
  | notFitted
deriving DecidableEq

/-- `PINNs.scalex` as invoked on an object: reading `self.xmin`/`self.xmax`
    before `fit_scalex` has assigned them fails; embedded as `Except`. -/
def scalexE (s : Option (XScale K)) (p : K × K) : Except NotFitted (K × K) :=
  match s with
  | none => Except.error NotFitted.notFitted
  | some s0 => Except.ok (scalex s0 p)

/-- `PINNs.predict` (source lines 144-149): scale the inputs with `scalex`,
    evaluate the model, invert the output scaling with `scale_r`.  Reading
    `self.xmin`/`self.xmax` or `self.ymax` before `fit` has assigned them
    fails. -/
def predictE (sx : Option (XScale K)) (sy : Option (YScale K)) (m : Model K)
    (cp : List (K × K)) : Except NotFitted (List (K × K × K)) :=
  match sx with
  | none => Except.error NotFitted.notFitted
  | some s0 =>
    match sy with
    | none => Except.error NotFitted.notFitted
    | some y0 =>
      Except.ok ((cp.map (scalex s0)).map fun p =>
        scale_r y0 (m.n0 p.1 p.2, m.n1 p.1 p.2, m.n2 p.1 p.2))

/-- `predict` as an operation on the object: it reads the state and assigns
    no attribute (source lines 144-149 contain no mutation of `self`). -/
def predictO (st : ObjState K) (cp : List (K × K)) :
    ObjState K × Except NotFitted (List (K × K × K)) :=
  (st, predictE st.xs st.ys st.m cp)

/-- One `PINNs.fit` call as a state transition (source lines 113-139): it
    re-fits the output normalizer on the call's boundary targets
    (`fit_scale`, line 117) and the input normalizer on the call's boundary
    coordinates (`fit_scalex`, line 118), runs phase 1 then phase 2 on the
    `(self.hist, self.epoch)` state, and returns the whole accumulated
    history (`np.array(self.hist)`, line 139).  As in `fitRun`, the logged
    triples are abstracted as `p1`/`p2` because the parameter updates are
    performed by the external optimizers. -/
def fitO (bc : List ((K × K) × (K × K × K))) (p1 : ℕ → Triple K)
    (p2 : List (Triple K)) (epochs : ℕ) (st : ObjState K) :
    ObjState K × List (Triple K) :=
  let fY := fit_scale (bc.map fun r => r.2)
  let fX := fit_scalex (bc.map fun r => r.1)
  let r := fitRun epochs p1 p2 (st.hist, st.epoch)
  ({ hist := r.1, epoch := r.2, xs := some fX.1, ys := some fY.1, m := st.m },
   r.1)

/-- The physical-space x-velocity prediction: the network evaluated at the
    normalized coordinates, with the output scaling inverted.  This is the
    function of the physical coordinates whose derivatives the specification
    means by `U_x`, `U_y`, `U_xx`, `U_yy`. -/
noncomputable def Uphys (sx : XScale ℝ) (sy : YScale ℝ) (m : Model ℝ) (x y : ℝ) : ℝ :=
  sy.ymax.1 * m.n0 ((x - sx.xmin.1) / (sx.xmax.1 - sx.xmin.1))
    ((y - sx.xmin.2) / (sx.xmax.2 - sx.xmin.2))

/-- The physical-space y-velocity prediction. -/
noncomputable def Vphys (sx : XScale ℝ) (sy : YScale ℝ) (m : Model ℝ) (x y : ℝ) : ℝ :=
  sy.ymax.2.1 * m.n1 ((x - sx.xmin.1) / (sx.xmax.1 - sx.xmin.1))
    ((y - sx.xmin.2) / (sx.xmax.2 - sx.xmin.2))

/-- The physical-space Reynolds shear-stress prediction. -/
noncomputable def uvphys (sx : XScale ℝ) (sy : YScale ℝ) (m : Model ℝ) (x y : ℝ) : ℝ :=
  sy.ymax.2.2 * m.n2 ((x - sx.xmin.1) / (sx.xmax.1 - sx.xmin.1))
    ((y - sx.xmin.2) / (sx.xmax.2 - sx.xmin.2))

/-- The residual row the specification describes: `f1`, `f2`, `f3` with
    `ν = 1/450`, where every derivative is a genuine (Mathlib) derivative of
    the physical-space predictions with respect to the physical input
    coordinates. -/
noncomputable def specRow (sx : XScale ℝ) (sy : YScale ℝ) (m : Model ℝ) (x y : ℝ) :
    ℝ × ℝ × ℝ :=
  let U := Uphys sx sy m x y
  let V := Vphys sx sy m x y
  let Ux := deriv (fun t => Uphys sx sy m t y) x
  let Uy := deriv (fun t => Uphys sx sy m x t) y
  let Vx := deriv (fun t => Vphys sx sy m t y) x
  let Vy := deriv (fun t => Vphys sx sy m x t) y
  let Uxx := deriv (fun t => deriv (fun u => Uphys sx sy m u y) t) x
  let Uyy := deriv (fun t => deriv (fun u => Uphys sx sy m x u) t) y
  let Vxx := deriv (fun t => deriv (fun u => Vphys sx sy m u y) t) x
  let Vyy := deriv (fun t => deriv (fun u => Vphys sx sy m x u) t) y
  let uvx := deriv (fun t => uvphys sx sy m t y) x
  let uvy := deriv (fun t => uvphys sx sy m x t) y
  (U * Ux + V * Uy - (1 / 450) * (Uxx + Uyy) + uvy,
   U * Vx + V * Vy - (1 / 450) * (Vxx + Vyy) + uvx,
   Ux + Vy)

/-- The partial-derivative data stored in a `Model ℝ` really is the system
    of first and second partial derivatives of the network components (the
    guarantee the external automatic-differentiation service provides). -/
def ModelDiff (m : Model ℝ) : Prop :=
  (∀ a b, HasDerivAt (fun t => m.n0 t b) (m.n0a a b) a) ∧
  (∀ a b, HasDerivAt (m.n0 a) (m.n0b a b) b) ∧
  (∀ a b, HasDerivAt (fun t => m.n0a t b) (m.n0aa a b) a) ∧
  (∀ a b, HasDerivAt (m.n0b a) (m.n0bb a b) b) ∧
  (∀ a b, HasDerivAt (fun t => m.n1 t b) (m.n1a a b) a) ∧
  (∀ a b, HasDerivAt (m.n1 a) (m.n1b a b) b) ∧
  (∀ a b, HasDerivAt (fun t => m.n1a t b) (m.n1aa a b) a) ∧
  (∀ a b, HasDerivAt (m.n1b a) (m.n1bb a b) b) ∧
  (∀ a b, HasDerivAt (fun t => m.n2 t b) (m.n2a a b) a) ∧
  (∀ a b, HasDerivAt (m.n2 a) (m.n2b a b) b)

/-- A concrete test network for instantiations: constant output `1` on all
    three components, with all recorded partial derivatives `0`. -/
def constModel : Model ℝ where
  n0 := fun _ _ => 1
  n1 := fun _ _ => 1
  n2 := fun _ _ => 1
  n0a := fun _ _ => 0
  n0b := fun _ _ => 0
  n0aa := fun _ _ => 0
  n0bb := fun _ _ => 0
  n1a := fun _ _ => 0
  n1b := fun _ _ => 0
  n1aa := fun _ _ => 0
  n1bb := fun _ _ => 0
  n2a := fun _ _ => 0
  n2b := fun _ _ => 0

end Defs

section ScaleTheorems

/-- C2 counterexample: on the matrix `[(-2, -2), (1, 1)]` the source's
    `fit_scalex` disagrees with the spec's description (the source stores
    `max |x| = 2` per column and divides by `max|x| - min = 4`, while the
    claim's transform stores `max x = 1` and divides by `max - min = 3`). -/
theorem C2_counterexample :
    fit_scalex [((-2 : ℚ), -2), (1, 1)] ≠ fit_scalex_claim [((-2 : ℚ), -2), (1, 1)] := by
  intro h
  have h2 := congrArg (fun z => z.1.xmax.1) h
  norm_num [fit_scalex, fit_scalex_claim, colMax2, colMin2, absRows2] at h2

/-- C2 (amended): `fit_scalex` stores the componentwise minimum of `x` and the
    componentwise maximum of `|x|` (max-abs, not the maximum of `x`), and
    returns `(x - min) / (maxabs - min)`. -/
theorem C2_fit_scalex_maxabs {K : Type} [LinearOrderedField K] (x : List (K × K)) :
    (fit_scalex x).1.xmin = colMin2 x ∧
    (fit_scalex x).1.xmax = colMax2 (absRows2 x) ∧
    (fit_scalex x).2 = x.map (fun p =>
      ((p.1 - (colMin2 x).1) / ((colMax2 (absRows2 x)).1 - (colMin2 x).1),
       (p.2 - (colMin2 x).2) / ((colMax2 (absRows2 x)).2 - (colMin2 x).2))) := by
  refine ⟨rfl, rfl, rfl⟩

/-- C3 counterexample: after fitting on `[(-2, -2), (1, 1)]`, `scalex` sends
    the componentwise maximum `(1, 1)` of the data to `(3/4, 3/4)`, not to
    `(1, 1)` (the stored denominator uses `max |x| = 2`). -/
theorem C3_counterexample :
    scalex (fit_scalex [((-2 : ℚ), -2), (1, 1)]).1
        (colMax2 [((-2 : ℚ), -2), (1, 1)]) ≠ (1, 1) := by
  norm_num [scalex, fit_scalex, colMax2, colMin2, absRows2, Prod.ext_iff]

/-- C3 (amended): after `fit_scalex` has been called on data `x`, `scalex`
    maps the componentwise minimum of `x` to `0.0`, and maps the stored
    maximum — the componentwise maximum of `|x|`, not of `x` — to `1.0`,
    componentwise, provided the stored max-abs differs from the stored min. -/
theorem C3_scalex_endpoints {K : Type} [LinearOrderedField K] (x : List (K × K))
    (h1 : (colMax2 (absRows2 x)).1 ≠ (colMin2 x).1)
    (h2 : (colMax2 (absRows2 x)).2 ≠ (colMin2 x).2) :
    scalex (fit_scalex x).1 (colMin2 x) = (0, 0) ∧
    scalex (fit_scalex x).1 (colMax2 (absRows2 x)) = (1, 1) := by
  constructor
  · simp [scalex, fit_scalex]
  · simp only [scalex, fit_scalex]
    rw [Prod.mk.injEq]
    exact ⟨div_self (sub_ne_zero.mpr h1), div_self (sub_ne_zero.mpr h2)⟩

/-- Witness for C3: on the data `[(0, 0), (1, 2)]` the stored max-abs is
    `(1, 2)`, distinct componentwise from the stored min `(0, 0)`; `scalex`
    sends the min to `(0, 0)` and the stored max to `(1, 1)`. -/
theorem C3_scalex_endpoints_witness :
    ((colMax2 (absRows2 [((0 : ℚ), 0), (1, 2)])).1 ≠ (colMin2 [((0 : ℚ), 0), (1, 2)]).1 ∧
     (colMax2 (absRows2 [((0 : ℚ), 0), (1, 2)])).2 ≠ (colMin2 [((0 : ℚ), 0), (1, 2)]).2) ∧
    (scalex (fit_scalex [((0 : ℚ), 0), (1, 2)]).1 (colMin2 [((0 : ℚ), 0), (1, 2)]) = (0, 0) ∧
     scalex (fit_scalex [((0 : ℚ), 0), (1, 2)]).1
       (colMax2 (absRows2 [((0 : ℚ), 0), (1, 2)])) = (1, 1)) :=
  ⟨⟨by norm_num [colMax2, colMin2, absRows2], by norm_num [colMax2, colMin2, absRows2]⟩,
   C3_scalex_endpoints [((0 : ℚ), 0), (1, 2)]
     (by norm_num [colMax2, colMin2, absRows2]) (by norm_num [colMax2, colMin2, absRows2])⟩

/-- C4: with a stored input range whose max differs from its min
    componentwise and a stored output max-abs that is nonzero componentwise,
    `scalex_r` inverts `scalex` exactly and `scale_r` inverts `scale`
    exactly (exact field arithmetic models the claim's real-arithmetic
    reading). -/
theorem C4_round_trip {K : Type} [LinearOrderedField K]
    (s : XScale K) (t : YScale K) (p : K × K) (q : K × K × K)
    (h1 : s.xmax.1 ≠ s.xmin.1) (h2 : s.xmax.2 ≠ s.xmin.2)
    (h3 : t.ymax.1 ≠ 0) (h4 : t.ymax.2.1 ≠ 0) (h5 : t.ymax.2.2 ≠ 0) :
    scalex_r s (scalex s p) = p ∧ scale_r t (scale t q) = q := by
  constructor
  · simp only [scalex, scalex_r]
    rw [Prod.mk.injEq]
    constructor
    · rw [div_mul_cancel₀ _ (sub_ne_zero.mpr h1)]; ring
    · rw [div_mul_cancel₀ _ (sub_ne_zero.mpr h2)]; ring
  · simp only [scale, scale_r]
    rw [Prod.mk.injEq, Prod.mk.injEq]
    exact ⟨div_mul_cancel₀ _ h3, div_mul_cancel₀ _ h4, div_mul_cancel₀ _ h5⟩

/-- Witness for C4: concrete non-degenerate states round-trip the point
    `(5, 7)` and the triple `(5, 7, 11)`. -/
theorem C4_round_trip_witness :
    (((3 : ℚ), 4) ≠ ((1 : ℚ), 2) ∧ (2 : ℚ) ≠ 0) ∧
    (scalex_r ⟨(1, 2), (3, 4)⟩ (scalex ⟨(1, 2), (3, 4)⟩ ((5 : ℚ), 7)) = (5, 7) ∧
     scale_r ⟨(2, 3, 4)⟩ (scale ⟨(2, 3, 4)⟩ ((5 : ℚ), 7, 11)) = (5, 7, 11)) :=
  ⟨⟨by norm_num, by norm_num⟩,
   C4_round_trip ⟨(1, 2), (3, 4)⟩ ⟨(2, 3, 4)⟩ (5, 7) (5, 7, 11)
     (by norm_num) (by norm_num) (by norm_num) (by norm_num) (by norm_num)⟩

end ScaleTheorems

section ResidualTheorems

/-- The normalization map `t ↦ (t - c) / (d - c)` has derivative
    `(d - c)⁻¹` everywhere. -/
theorem hasDerivAt_normCoord (c d t : ℝ) :
    HasDerivAt (fun s => (s - c) / (d - c)) ((d - c)⁻¹) t := by
  simpa [one_div] using ((hasDerivAt_id t).sub_const c).div_const (d - c)

/-- Chain rule for one scaled network component: the derivative of
    `t ↦ ym * n ((t - c) / (d - c))` at `x` is the recorded partial times
    the factor `(d - c)⁻¹`. -/
theorem hasDerivAt_physComp (ym c d : ℝ) (n na : ℝ → ℝ)
    (hn : ∀ t, HasDerivAt n (na t) t) (x : ℝ) :
    HasDerivAt (fun t => ym * n ((t - c) / (d - c)))
      (ym * na ((x - c) / (d - c)) * (d - c)⁻¹) x := by
  have h1 := (hn ((x - c) / (d - c))).comp x (hasDerivAt_normCoord c d x)
  have h2 := h1.const_mul ym
  simpa [Function.comp, mul_assoc] using h2

/-- `deriv` form of `hasDerivAt_physComp`. -/
theorem deriv_physComp (ym c d : ℝ) (n na : ℝ → ℝ)
    (hn : ∀ t, HasDerivAt n (na t) t) (x : ℝ) :
    deriv (fun t => ym * n ((t - c) / (d - c))) x
      = ym * na ((x - c) / (d - c)) * (d - c)⁻¹ :=
  (hasDerivAt_physComp ym c d n na hn x).deriv

/-- Second-order chain rule: differentiating the first derivative again
    contributes the factor `(d - c)⁻¹` a second time. -/
theorem deriv2_physComp (ym c d : ℝ) (n na naa : ℝ → ℝ)
    (hn : ∀ t, HasDerivAt n (na t) t) (hna : ∀ t, HasDerivAt na (naa t) t) (x : ℝ) :
    deriv (fun t => deriv (fun u => ym * n ((u - c) / (d - c))) t) x
      = ym * naa ((x - c) / (d - c)) * (d - c)⁻¹ * (d - c)⁻¹ := by
  have hrw : (fun t => deriv (fun u => ym * n ((u - c) / (d - c))) t)
      = fun t => ym * na ((t - c) / (d - c)) * (d - c)⁻¹ :=
    funext fun t => deriv_physComp ym c d n na hn t
  rw [hrw]
  exact ((hasDerivAt_physComp ym c d na naa hna x).mul_const ((d - c)⁻¹)).deriv

/-- Pointwise agreement of the embedded `net_f` row with the residual row
    built from genuine derivatives of the physical-space predictions. -/
theorem netfRowPhys_eq (sx : XScale ℝ) (sy : YScale ℝ) (m : Model ℝ)
    (h0a : ∀ a b, HasDerivAt (fun t => m.n0 t b) (m.n0a a b) a)
    (h0b : ∀ a b, HasDerivAt (m.n0 a) (m.n0b a b) b)
    (h0aa : ∀ a b, HasDerivAt (fun t => m.n0a t b) (m.n0aa a b) a)
    (h0bb : ∀ a b, HasDerivAt (m.n0b a) (m.n0bb a b) b)
    (h1a : ∀ a b, HasDerivAt (fun t => m.n1 t b) (m.n1a a b) a)
    (h1b : ∀ a b, HasDerivAt (m.n1 a) (m.n1b a b) b)
    (h1aa : ∀ a b, HasDerivAt (fun t => m.n1a t b) (m.n1aa a b) a)
    (h1bb : ∀ a b, HasDerivAt (m.n1b a) (m.n1bb a b) b)
    (h2a : ∀ a b, HasDerivAt (fun t => m.n2 t b) (m.n2a a b) a)
    (h2b : ∀ a b, HasDerivAt (m.n2 a) (m.n2b a b) b)
    (x y : ℝ) :
    netfRowPhys sx sy m x y = specRow sx sy m x y := by
  have eUx : deriv (fun t => sy.ymax.1 * m.n0
        ((t - sx.xmin.1) / (sx.xmax.1 - sx.xmin.1))
        ((y - sx.xmin.2) / (sx.xmax.2 - sx.xmin.2))) x
      = sy.ymax.1 * m.n0a ((x - sx.xmin.1) / (sx.xmax.1 - sx.xmin.1))
          ((y - sx.xmin.2) / (sx.xmax.2 - sx.xmin.2)) * (sx.xmax.1 - sx.xmin.1)⁻¹ :=
    deriv_physComp sy.ymax.1 sx.xmin.1 sx.xmax.1 (fun s => m.n0 s _) (fun s => m.n0a s _)
      (fun t => h0a t _) x
  have eUy : deriv (fun t => sy.ymax.1 * m.n0
        ((x - sx.xmin.1) / (sx.xmax.1 - sx.xmin.1))
        ((t - sx.xmin.2) / (sx.xmax.2 - sx.xmin.2))) y
      = sy.ymax.1 * m.n0b ((x - sx.xmin.1) / (sx.xmax.1 - sx.xmin.1))
          ((y - sx.xmin.2) / (sx.xmax.2 - sx.xmin.2)) * (sx.xmax.2 - sx.xmin.2)⁻¹ :=
    deriv_physComp sy.ymax.1 sx.xmin.2 sx.xmax.2 (m.n0 _) (m.n0b _)
      (fun t => h0b _ t) y
  have eVx : deriv (fun t => sy.ymax.2.1 * m.n1
        ((t - sx.xmin.1) / (sx.xmax.1 - sx.xmin.1))
        ((y - sx.xmin.2) / (sx.xmax.2 - sx.xmin.2))) x
      = sy.ymax.2.1 * m.n1a ((x - sx.xmin.1) / (sx.xmax.1 - sx.xmin.1))
          ((y - sx.xmin.2) / (sx.xmax.2 - sx.xmin.2)) * (sx.xmax.1 - sx.xmin.1)⁻¹ :=
    deriv_physComp sy.ymax.2.1 sx.xmin.1 sx.xmax.1 (fun s => m.n1 s _) (fun s => m.n1a s _)
      (fun t => h1a t _) x
  have eVy : deriv (fun t => sy.ymax.2.1 * m.n1
        ((x - sx.xmin.1) / (sx.xmax.1 - sx.xmin.1))
        ((t - sx.xmin.2) / (sx.xmax.2 - sx.xmin.2))) y
      = sy.ymax.2.1 * m.n1b ((x - sx.xmin.1) / (sx.xmax.1 - sx.xmin.1))
          ((y - sx.xmin.2) / (sx.xmax.2 - sx.xmin.2)) * (sx.xmax.2 - sx.xmin.2)⁻¹ :=
    deriv_physComp sy.ymax.2.1 sx.xmin.2 sx.xmax.2 (m.n1 _) (m.n1b _)
      (fun t => h1b _ t) y
  have euvx : deriv (fun t => sy.ymax.2.2 * m.n2
        ((t - sx.xmin.1) / (sx.xmax.1 - sx.xmin.1))
        ((y - sx.xmin.2) / (sx.xmax.2 - sx.xmin.2))) x
      = sy.ymax.2.2 * m.n2a ((x - sx.xmin.1) / (sx.xmax.1 - sx.xmin.1))
          ((y - sx.xmin.2) / (sx.xmax.2 - sx.xmin.2)) * (sx.xmax.1 - sx.xmin.1)⁻¹ :=
    deriv_physComp sy.ymax.2.2 sx.xmin.1 sx.xmax.1 (fun s => m.n2 s _) (fun s => m.n2a s _)
      (fun t => h2a t _) x
  have euvy : deriv (fun t => sy.ymax.2.2 * m.n2
        ((x - sx.xmin.1) / (sx.xmax.1 - sx.xmin.1))
        ((t - sx.xmin.2) / (sx.xmax.2 - sx.xmin.2))) y
      = sy.ymax.2.2 * m.n2b ((x - sx.xmin.1) / (sx.xmax.1 - sx.xmin.1))
          ((y - sx.xmin.2) / (sx.xmax.2 - sx.xmin.2)) * (sx.xmax.2 - sx.xmin.2)⁻¹ :=
    deriv_physComp sy.ymax.2.2 sx.xmin.2 sx.xmax.2 (m.n2 _) (m.n2b _)
      (fun t => h2b _ t) y
  have eUxx : deriv (fun t => deriv (fun u => sy.ymax.1 * m.n0
        ((u - sx.xmin.1) / (sx.xmax.1 - sx.xmin.1))
        ((y - sx.xmin.2) / (sx.xmax.2 - sx.xmin.2))) t) x
      = sy.ymax.1 * m.n0aa ((x - sx.xmin.1) / (sx.xmax.1 - sx.xmin.1))
          ((y - sx.xmin.2) / (sx.xmax.2 - sx.xmin.2)) * (sx.xmax.1 - sx.xmin.1)⁻¹ *
          (sx.xmax.1 - sx.xmin.1)⁻¹ :=
    deriv2_physComp sy.ymax.1 sx.xmin.1 sx.xmax.1 (fun s => m.n0 s _) (fun s => m.n0a s _)
      (fun s => m.n0aa s _) (fun t => h0a t _) (fun t => h0aa t _) x
  have eUyy : deriv (fun t => deriv (fun u => sy.ymax.1 * m.n0
        ((x - sx.xmin.1) / (sx.xmax.1 - sx.xmin.1))
        ((u - sx.xmin.2) / (sx.xmax.2 - sx.xmin.2))) t) y
      = sy.ymax.1 * m.n0bb ((x - sx.xmin.1) / (sx.xmax.1 - sx.xmin.1))
          ((y - sx.xmin.2) / (sx.xmax.2 - sx.xmin.2)) * (sx.xmax.2 - sx.xmin.2)⁻¹ *
          (sx.xmax.2 - sx.xmin.2)⁻¹ :=
    deriv2_physComp sy.ymax.1 sx.xmin.2 sx.xmax.2 (m.n0 _) (m.n0b _) (m.n0bb _)
      (fun t => h0b _ t) (fun t => h0bb _ t) y
  have eVxx : deriv (fun t => deriv (fun u => sy.ymax.2.1 * m.n1
        ((u - sx.xmin.1) / (sx.xmax.1 - sx.xmin.1))
        ((y - sx.xmin.2) / (sx.xmax.2 - sx.xmin.2))) t) x
      = sy.ymax.2.1 * m.n1aa ((x - sx.xmin.1) / (sx.xmax.1 - sx.xmin.1))
          ((y - sx.xmin.2) / (sx.xmax.2 - sx.xmin.2)) * (sx.xmax.1 - sx.xmin.1)⁻¹ *
          (sx.xmax.1 - sx.xmin.1)⁻¹ :=
    deriv2_physComp sy.ymax.2.1 sx.xmin.1 sx.xmax.1 (fun s => m.n1 s _) (fun s => m.n1a s _)
      (fun s => m.n1aa s _) (fun t => h1a t _) (fun t => h1aa t _) x
  have eVyy : deriv (fun t => deriv (fun u => sy.ymax.2.1 * m.n1
        ((x - sx.xmin.1) / (sx.xmax.1 - sx.xmin.1))
        ((u - sx.xmin.2) / (sx.xmax.2 - sx.xmin.2))) t) y
      = sy.ymax.2.1 * m.n1bb ((x - sx.xmin.1) / (sx.xmax.1 - sx.xmin.1))
          ((y - sx.xmin.2) / (sx.xmax.2 - sx.xmin.2)) * (sx.xmax.2 - sx.xmin.2)⁻¹ *
          (sx.xmax.2 - sx.xmin.2)⁻¹ :=
    deriv2_physComp sy.ymax.2.1 sx.xmin.2 sx.xmax.2 (m.n1 _) (m.n1b _) (m.n1bb _)
      (fun t => h1b _ t) (fun t => h1bb _ t) y
  simp only [netfRowPhys, specRow, scalex, scale_r, Uphys, Vphys, uvphys, nu,
    eUx, eUy, eVx, eVy, euvx, euvy, eUxx, eUyy, eVxx, eVyy, Prod.mk.injEq]
  refine ⟨by ring, by ring, trivial⟩

/-- C1: for every batch of collocation points, `net_f` returns one row per
    collocation point, and the row at a point is exactly the triple
    `(f1, f2, f3)` of the specification with `ν = 1/450`, where `U`, `V`,
    `uv` are the physical-space predictions at the physical coordinates of
    the point and every derivative in `f1`, `f2`, `f3` is a derivative with
    respect to the physical input coordinates. -/
theorem C1_netf_residual_rows (sx : XScale ℝ) (sy : YScale ℝ) (m : Model ℝ)
    (hm : ModelDiff m) (cp : List (ℝ × ℝ)) :
    net_f sx sy m cp = cp.map fun p =>
      specRow sx sy m (scalex_r sx p).1 (scalex_r sx p).2 := by
  obtain ⟨h0a, h0b, h0aa, h0bb, h1a, h1b, h1aa, h1bb, h2a, h2b⟩ := hm
  have hfun : netfRow sx sy m = fun p =>
      specRow sx sy m (scalex_r sx p).1 (scalex_r sx p).2 :=
    funext fun p =>
      netfRowPhys_eq sx sy m h0a h0b h0aa h0bb h1a h1b h1aa h1bb h2a h2b
        (scalex_r sx p).1 (scalex_r sx p).2
  simp only [net_f, hfun]

/-- The constant test network satisfies the differentiability contract. -/
theorem constModel_diff : ModelDiff constModel := by
  refine ⟨?_, ?_, ?_, ?_, ?_, ?_, ?_, ?_, ?_, ?_⟩ <;>
    exact fun a b => hasDerivAt_const _ _

/-- Witness for C1: the differentiability hypotheses hold for the constant
    test network and the residual identity holds for it on a one-point
    batch with a concrete normalization state. -/
theorem C1_netf_residual_rows_witness :
    ModelDiff constModel ∧
    net_f ⟨(0, 0), (1, 1)⟩ ⟨(1, 1, 1)⟩ constModel [((1 : ℝ), 2)] =
      [((1 : ℝ), 2)].map (fun p =>
        specRow ⟨(0, 0), (1, 1)⟩ ⟨(1, 1, 1)⟩ constModel
          (scalex_r ⟨(0, 0), (1, 1)⟩ p).1 (scalex_r ⟨(0, 0), (1, 1)⟩ p).2) :=
  ⟨constModel_diff,
   C1_netf_residual_rows ⟨(0, 0), (1, 1)⟩ ⟨(1, 1, 1)⟩ constModel constModel_diff
     [((1 : ℝ), 2)]⟩

end ResidualTheorems

section LossTheorems

/-- Flattening a 3-column matrix multiplies the row count by three. -/
theorem flat3_length {K : Type} [LinearOrderedField K] (rows : List (K × K × K)) :
    (flat3 rows).length = 3 * rows.length := by
  induction rows with
  | nil => simp [flat3]
  | cons r rs ih =>
      simp [flat3] at ih ⊢
      omega

/-- The total of the squared entries of a 3-column matrix equals the total
    of the rowwise sums of its squared rows. -/
theorem flat3_sq_sum {K : Type} [LinearOrderedField K] (rows : List (K × K × K)) :
    ((flat3 rows).map fun v => v ^ 2).sum
      = ((rows.map square3).map fun t => t.1 + t.2.1 + t.2.2).sum := by
  induction rows with
  | nil => simp [flat3]
  | cons r rs ih =>
      simp [flat3, square3] at ih ⊢
      linear_combination ih

/-- `tf.reduce_mean(tf.square(_))` over an `N × 3` tensor is the mean of the
    squares of its `3N` entries. -/
theorem reduce_mean3_map_square3 {K : Type} [LinearOrderedField K]
    (rows : List (K × K × K)) :
    reduce_mean3 (rows.map square3) = meanOfList ((flat3 rows).map fun v => v ^ 2) := by
  rw [reduce_mean3, meanOfList, flat3_sq_sum]
  simp only [List.length_map, flat3_length]
  push_cast
  ring

/-- C5: in every training step, the boundary loss is the mean of the squared
    elementwise differences between the model's boundary predictions and the
    boundary targets in normalized space, the PDE loss is the mean of the
    squared elementwise residuals, the total loss returned for gradient
    computation is their unweighted sum, and the logged triple (the one
    appended to the history) is `(total, boundary, PDE)` in that order. -/
theorem C5_train_step_losses {K : Type} [LinearOrderedField K] (sx : XScale K)
    (sy : YScale K) (m : Model K) (bc : List ((K × K) × (K × K × K)))
    (cp : List (K × K)) :
    (train_step sx sy m bc cp).1
        = boundaryLossSpec m bc + pdeLossSpec sx sy m cp ∧
    (train_step sx sy m bc cp).2
        = (boundaryLossSpec m bc + pdeLossSpec sx sy m cp,
           boundaryLossSpec m bc, pdeLossSpec sx sy m cp) := by
  constructor <;>
    simp only [train_step, boundaryLossSpec, pdeLossSpec, reduce_mean3_map_square3]

end LossTheorems

section HistoryTheorems

/-- Unfolding of the phase-1 loop: it appends the triples logged at epoch
    counters `e, e+1, …, e+n-1` in order and advances the counter by `n`. -/
theorem phase1_spec {K : Type} [LinearOrderedField K] (p1 : ℕ → Triple K) (n : ℕ) :
    ∀ (h : List (Triple K)) (e : ℕ),
      phase1 p1 n (h, e) = (h ++ (List.range' e n).map p1, e + n) := by
  induction n with
  | zero =>
      intro h e
      simp [phase1]
  | succ k ih =>
      intro h e
      rw [phase1, ih (h ++ [p1 e]) (e + 1), Prod.mk.injEq]
      refine ⟨?_, by omega⟩
      rw [List.range'_succ e k 1]
      simp

/-- Unfolding of the phase-2 closure invocations: they append their triples
    in call order and advance the counter once per invocation. -/
theorem phase2_spec {K : Type} [LinearOrderedField K] (ts : List (Triple K)) :
    ∀ (h : List (Triple K)) (e : ℕ),
      phase2 ts (h, e) = (h ++ ts, e + ts.length) := by
  induction ts with
  | nil =>
      intro h e
      simp [phase2]
  | cons t ts ih =>
      intro h e
      rw [phase2, ih (h ++ [t]) (e + 1), Prod.mk.injEq]
      refine ⟨by simp, by simp; omega⟩

/-- Closed form of one `fit` call's history bookkeeping. -/
theorem fitRun_spec {K : Type} [LinearOrderedField K] (epochs : ℕ)
    (p1 : ℕ → Triple K) (p2 : List (Triple K)) (h : List (Triple K)) (e : ℕ) :
    fitRun epochs p1 p2 (h, e)
      = (h ++ (List.range' e epochs).map p1 ++ p2, e + epochs + p2.length) := by
  rw [fitRun, phase1_spec p1 epochs h e,
    phase2_spec p2 (h ++ (List.range' e epochs).map p1) (e + epochs)]

/-- C6: for a `fit` call on a freshly constructed object, the returned
    history has length `epochs + (number of phase-2 closure invocations)`;
    its first `epochs` entries are exactly the phase-1 triples in call
    order; the remaining entries are exactly the phase-2 triples (so every
    phase-1 entry precedes every phase-2 entry); and, from any prior state,
    `fit` only appends: the previous history is left in place unmodified as
    a prefix of the new one. -/
theorem C6_fit_history {K : Type} [LinearOrderedField K] (m : Model K)
    (bc : List ((K × K) × (K × K × K))) (epochs : ℕ) (p1 : ℕ → Triple K)
    (p2 : List (Triple K)) (h0 : List (Triple K)) (e0 : ℕ) :
    (fitO bc p1 p2 epochs (initState m)).2.length = epochs + p2.length ∧
    (fitO bc p1 p2 epochs (initState m)).2.take epochs = (List.range epochs).map p1 ∧
    (fitO bc p1 p2 epochs (initState m)).2.drop epochs = p2 ∧
    (fitRun epochs p1 p2 (h0, e0)).1
      = h0 ++ ((List.range' e0 epochs).map p1 ++ p2) := by
  have hfresh : (fitO bc p1 p2 epochs (initState m)).2
      = (List.range epochs).map p1 ++ p2 := by
    simp [fitO, initState, fitRun_spec, List.range_eq_range']
  refine ⟨?_, ?_, ?_, ?_⟩
  · rw [hfresh]; simp
  · rw [hfresh, List.take_left' (by simp)]
  · rw [hfresh, List.drop_left' (by simp)]
  · rw [fitRun_spec]
    simp

/-- Unfolding of the phase-1 event emission. -/
theorem phase1Trace_spec (n : ℕ) :
    ∀ e, phase1Trace n e = (List.range' e n).map FitEv.p1 := by
  induction n with
  | zero =>
      intro e
      simp [phase1Trace]
  | succ k ih =>
      intro e
      rw [phase1Trace, ih (e + 1), List.range'_succ e k 1]
      simp

/-- C7: in every `fit` call the phase-2 entry (the `minimize` call) occurs
    exactly once, at trace position `epochs` — immediately after the
    `epochs` phase-1 steps and before every phase-2 closure invocation —
    for every configured epoch count including zero and for every number of
    closure invocations. -/
theorem C7_phase2_entry (epochs k : ℕ) :
    fitTrace epochs k
      = (List.range epochs).map FitEv.p1
        ++ FitEv.enterP2 :: (List.range k).map FitEv.p2 ∧
    (fitTrace epochs k)[epochs]? = some FitEv.enterP2 ∧
    (fitTrace epochs k).count FitEv.enterP2 = 1 := by
  have h1 : fitTrace epochs k
      = (List.range epochs).map FitEv.p1
        ++ FitEv.enterP2 :: (List.range k).map FitEv.p2 := by
    rw [fitTrace, phase1Trace_spec epochs 0, ← List.range_eq_range']
  refine ⟨h1, ?_, ?_⟩
  · rw [h1, List.getElem?_append_right (by simp)]
    simp
  · have hc1 : List.count FitEv.enterP2 ((List.range epochs).map FitEv.p1) = 0 := by
      simp [List.count_eq_zero, List.mem_map]
    have hc2 : List.count FitEv.enterP2 ((List.range k).map FitEv.p2) = 0 := by
      simp [List.count_eq_zero, List.mem_map]
    rw [h1, List.count_append, List.count_cons, hc1, hc2]
    simp

end HistoryTheorems

section ObjectTheorems

/-- C8: invoking `predict` (or `scalex`) on a freshly constructed object,
    before any `fit` has run, fails immediately with the not-fitted
    precondition violation; no value is silently returned. -/
theorem C8_not_fitted {K : Type} [LinearOrderedField K] (m : Model K)
    (cp : List (K × K)) (p : K × K) :
    (predictO (initState m) cp).2 = Except.error NotFitted.notFitted ∧
    scalexE (initState m).xs p = Except.error NotFitted.notFitted ∧
    ∀ v, (predictO (initState m) cp).2 ≠ Except.ok v :=
  ⟨rfl, rfl, fun _ h => Except.noConfusion h⟩

/-- C9: `predict` neither mutates the object's state nor depends on anything
    but the state and its input, so two consecutive `predict` calls with the
    same input and no intervening `fit` return identical outputs. -/
theorem C9_predict_deterministic {K : Type} [LinearOrderedField K]
    (st : ObjState K) (cp : List (K × K)) :
    (predictO st cp).1 = st ∧
    (predictO (predictO st cp).1 cp).2 = (predictO st cp).2 :=
  ⟨rfl, rfl⟩

/-- C10: the history and the epoch counter persist across `fit` calls: the
    history starts empty at construction and is never cleared, a second
    `fit` continues the epoch counter from its previous value, the second
    call returns the first call's triples followed by the second call's
    triples, and the normalizer is re-fitted on the second call's data. -/
theorem C10_history_persists {K : Type} [LinearOrderedField K] (m : Model K)
    (bc1 bc2 : List ((K × K) × (K × K × K))) (e1 e2 : ℕ)
    (p1 p2 : ℕ → Triple K) (q1 q2 : List (Triple K)) :
    (initState m : ObjState K).hist = [] ∧
    (fitO bc1 p1 q1 e1 (initState m)).1.epoch = e1 + q1.length ∧
    (fitO bc2 p2 q2 e2 (fitO bc1 p1 q1 e1 (initState m)).1).1.epoch
      = (fitO bc1 p1 q1 e1 (initState m)).1.epoch + e2 + q2.length ∧
    (fitO bc2 p2 q2 e2 (fitO bc1 p1 q1 e1 (initState m)).1).2
      = (fitO bc1 p1 q1 e1 (initState m)).2
        ++ ((List.range' (e1 + q1.length) e2).map p2 ++ q2) ∧
    (fitO bc2 p2 q2 e2 (fitO bc1 p1 q1 e1 (initState m)).1).1.xs
      = some (fit_scalex (bc2.map fun r => r.1)).1 ∧
    (fitO bc2 p2 q2 e2 (fitO bc1 p1 q1 e1 (initState m)).1).1.ys
      = some (fit_scale (bc2.map fun r => r.2)).1 := by
  refine ⟨rfl, ?_, ?_, ?_, rfl, rfl⟩ <;>
    simp [fitO, initState, fitRun_spec, List.append_assoc]

end ObjectTheorems

end PINNZPG
